import Mathlib

/-!
Shallow embedding of the `ui` crate: the styled canvas (`src/canvas.rs`),
the widget contract and focus-grid container (`src/lib.rs`) and the
dirty-tracking decorator (`src/util.rs`), together with theorems settling
the specification claims about them.

Machine integers are modelled as `Nat` with explicit masking where the
Rust code relies on `u8` semantics.  Fallible operations return
`Except`/`Option`; the unbounded alert recursion of `Grid::alert_all` is
modelled with an explicit fuel parameter (`none` = fuel exhausted).
-/

/-- `TextStyles` from `src/canvas.rs`: a `u8` with one bit per style
(bold = bit 0, italics = bit 1, underline = bit 2, inverse = bit 3). -/
structure TextStyles where
  inner : Nat
deriving DecidableEq

def TextStyles.new : TextStyles := ⟨0⟩

/-- `TextStyles::bold`: `self.inner |= (yes as u8) << BOLD_POS`. -/
def TextStyles.bold (s : TextStyles) (yes : Bool) : TextStyles :=
  ⟨s.inner ||| ((if yes then 1 else 0) <<< 0)⟩

/-- `TextStyles::italics`: `self.inner |= (yes as u8) << ITALICS_POS`. -/
def TextStyles.italics (s : TextStyles) (yes : Bool) : TextStyles :=
  ⟨s.inner ||| ((if yes then 1 else 0) <<< 1)⟩

/-- `TextStyles::underline`: `self.inner |= (yes as u8) << UNDERLINE_POS`. -/
def TextStyles.underline (s : TextStyles) (yes : Bool) : TextStyles :=
  ⟨s.inner ||| ((if yes then 1 else 0) <<< 2)⟩

/-- `TextStyles::inverse`: `self.inner |= (yes as u8) << INVERSE_POS`. -/
def TextStyles.inverse (s : TextStyles) (yes : Bool) : TextStyles :=
  ⟨s.inner ||| ((if yes then 1 else 0) <<< 3)⟩

/-- `Pixel` from `src/canvas.rs`: one character plus the 8-bit
style-transition field (low nibble = ON bits, high nibble = OFF bits). -/
structure Pixel where
  ch : Char
  flags : Nat
deriving DecidableEq

/-- `Pixel::set_styles_on`: `self.flags &= !0 << 4; self.flags |= styles.inner`.
(`!0u8 << 4 = 0xF0`, so the ON nibble is cleared before the new ON bits are
OR'd in; the OFF nibble is preserved.) -/
def Pixel.set_styles_on (p : Pixel) (styles : TextStyles) : Pixel :=
  { p with flags := (p.flags &&& 0xF0) ||| styles.inner }

/-- `Pixel::set_styles_off`: `self.flags &= !0 >> 4; self.flags |= styles.inner << 4`.
(`!0u8 >> 4 = 0x0F`; the `u8` shift wraps, hence the `% 256`.) -/
def Pixel.set_styles_off (p : Pixel) (styles : TextStyles) : Pixel :=
  { p with flags := (p.flags &&& 0x0F) ||| ((styles.inner <<< 4) % 256) }

/-- `Canvas` from `src/canvas.rs`: a row-major pixel buffer. -/
structure Canvas where
  width : Nat
  height : Nat
  pixels : List Pixel
deriving DecidableEq

/-- `Canvas::new(width, height, filler)`. -/
def Canvas.new (width height : Nat) (filler : Char) : Canvas :=
  { width := width, height := height
    pixels := List.replicate (width * height) { ch := filler, flags := 0 } }

/-- `Canvas::get`: bounds-checked pixel read. -/
def Canvas.get (c : Canvas) (x y : Nat) : Option Pixel :=
  if x < c.width ∧ y < c.height then c.pixels.get? (y * c.width + x) else none

/-- In-place update of the pixel at raw buffer index `i` (the effect of a
write through `get_unchecked_mut`; every call site in the source has already
established that the index is inside the buffer). -/
def Canvas.modifyIdx (c : Canvas) (i : Nat) (f : Pixel → Pixel) : Canvas :=
  match c.pixels.get? i with
  | some p => { c with pixels := c.pixels.set i (f p) }
  | none => c

/-- In-place update of the pixel at `(x, y)` (row-major index `y * width + x`,
as in `Canvas::get_unchecked_mut`). -/
def Canvas.modifyPx (c : Canvas) (x y : Nat) (f : Pixel → Pixel) : Canvas :=
  c.modifyIdx (y * c.width + x) f

/-- Loop state of the character loop in `Canvas::text`: the buffer plus the
`current_x`, `current_y`, `in_bounds`, `last_x`, `last_y` locals. -/
structure TextState where
  canvas : Canvas
  current_x : Nat
  current_y : Nat
  in_bounds : Bool
  last_x : Nat
  last_y : Nat

/-- One iteration of the `for letter in text.chars()` loop of `Canvas::text`
(`x` is the starting column, captured by the loop). -/
def Canvas.textStep (x : Nat) (styles : TextStyles) (st : TextState) (letter : Char) :
    TextState :=
  if letter = '\n' then
    let c1 := st.canvas.modifyPx st.last_x st.last_y (fun p => p.set_styles_off styles)
    let cx := x
    let cy := st.current_y + 1
    if cx < c1.width ∧ cy < c1.height then
      { canvas := c1.modifyPx cx cy (fun p => p.set_styles_on styles)
        current_x := cx, current_y := cy, in_bounds := true, last_x := cx, last_y := cy }
    else
      { canvas := c1, current_x := cx, current_y := cy, in_bounds := false
        last_x := st.last_x, last_y := st.last_y }
  else
    if st.in_bounds then
      let c1 := st.canvas.modifyPx st.current_x st.current_y (fun p => { p with ch := letter })
      { canvas := c1, current_x := st.current_x + 1, current_y := st.current_y
        in_bounds := decide (c1.width > st.current_x + 1)
        last_x := st.current_x, last_y := st.current_y }
    else
      st

/-- `Canvas::text(text, x, y, styles)` from `src/canvas.rs`. -/
def Canvas.text (c : Canvas) (text : List Char) (x y : Nat) (styles : TextStyles) : Canvas :=
  if c.width ≤ x ∨ c.height ≤ y then c
  else
    let c0 := c.modifyPx x y (fun p => p.set_styles_on styles)
    let st := text.foldl (Canvas.textStep x styles)
      { canvas := c0, current_x := x, current_y := y, in_bounds := true, last_x := x, last_y := y }
    st.canvas.modifyPx st.last_x st.last_y (fun p => p.set_styles_off styles)

/-- The slice-fill loop of `Canvas::line`: sets the character of `len`
consecutive pixels starting at raw index `start`. -/
def Canvas.setChRange : Canvas → Nat → Nat → Char → Canvas
  | c, _, 0, _ => c
  | c, start, n + 1, fill =>
    Canvas.setChRange (c.modifyIdx start (fun p => { p with ch := fill })) (start + 1) n fill

/-- `Canvas::line(fill, x, y, len, styles)` from `src/canvas.rs`. -/
def Canvas.line (c : Canvas) (fill : Char) (x y len : Nat) (styles : TextStyles) : Canvas :=
  if c.width ≤ x ∨ c.height ≤ y ∨ len = 0 then c
  else
    let len2 := if c.width ≤ x + len then c.width - x else len
    let c1 := c.setChRange (y * c.width + x) len2 fill
    let c2 := c1.modifyPx x y (fun p => p.set_styles_on styles)
    c2.modifyPx (x + len2 - 1) y (fun p => p.set_styles_off styles)

-- Quick sanity examples (concrete evaluation of the embedding).
example :
    ((Canvas.new 1 1 ' ').text ['a'] 0 0 (TextStyles.new.bold true)).get 0 0 =
      some ⟨'a', 0x11⟩ := by decide

example :
    (((Canvas.new 1 1 ' ').text ['a'] 0 0 (TextStyles.new.bold true)).text ['a'] 0 0
        (TextStyles.new.underline true)).get 0 0 = some ⟨'a', 0x44⟩ := by decide

/-! ## `src/lib.rs`: the widget contract and the focus grid -/

/-- `Response` from `src/lib.rs`.  Handles (`ElemHandle`) are plain indices. -/
inductive Response where
  | Contained : Response
  | MoveUp : Response
  | MoveDown : Response
  | MoveRight : Response
  | MoveLeft : Response
  | Alert : List Nat → Response
deriving DecidableEq

/-- `pub const UP: char = 'k'`. -/
def UP : Char := 'k'
/-- `pub const DOWN: char = 'j'`. -/
def DOWN : Char := 'j'
/-- `pub const RIGHT: char = 'l'`. -/
def RIGHT : Char := 'l'
/-- `pub const LEFT: char = 'h'`. -/
def LEFT : Char := 'h'

/-- The default body of `Element::respond` from `src/lib.rs`. -/
def defaultRespond (input : Char) : Response :=
  if input = UP then .MoveUp
  else if input = DOWN then .MoveDown
  else if input = RIGHT then .MoveRight
  else if input = LEFT then .MoveLeft
  else .Contained

/-- A trait object `Box<Element>` is modelled as a bundle of pure methods
over a state type `S` (mutation of `&mut self` becomes state passing). -/
structure ElemImpl (S : Type) where
  select : S → S
  unselect : S → S
  advance : S → S
  respond : S → Char → S × Response
  enterTop : S → S
  enterBottom : S → S
  enterRight : S → S
  enterLeft : S → S
  alert : S → S × Option (List Nat)

/-- `ElemHolder` from `src/lib.rs`: a boxed element (impl + state), its draw
offset and the four neighbor indices (`-1` = no neighbor). -/
structure ElemHolder (S : Type) where
  impl : ElemImpl S
  state : S
  x : Nat
  y : Nat
  up : Int
  down : Int
  right : Int
  left : Int

/-- `ElemHolder::new`. -/
def ElemHolder.new (impl : ElemImpl S) (state : S) (x y : Nat) : ElemHolder S :=
  { impl, state, x, y, up := -1, down := -1, right := -1, left := -1 }

/-- `Grid` from `src/lib.rs`. -/
structure Grid (S : Type) where
  elems : List (ElemHolder S)
  focus : Nat

/-- Mutation of the holder at index `i` (out-of-range access is
`get_unchecked`-style UB in the source and never happens at a reachable
call site; modelled as a no-op). -/
def Grid.modifyHolder (g : Grid S) (i : Nat) (f : ElemHolder S → ElemHolder S) : Grid S :=
  match g.elems.get? i with
  | some e => { g with elems := g.elems.set i (f e) }
  | none => g

/-- Mutation of just the element state at index `i` (a call through
`focus_mut().elem` or `get_mut(..).elem`). -/
def Grid.modifyState (g : Grid S) (i : Nat) (f : ElemImpl S → S → S) : Grid S :=
  g.modifyHolder i (fun e => { e with state := f e.impl e.state })

/-- `Grid::with_capacity` from `src/lib.rs`: two seeded entries
(top-left at index `TL_IDX = 0`, bottom-right at `BR_IDX = 1`), focus at 0,
then `grid.focus_mut().elem.select()`.  `cap` only pre-sizes the `Vec`. -/
def Grid.with_capacity (tl : ElemImpl S) (tlState : S) (tl_x tl_y : Nat)
    (br : ElemImpl S) (brState : S) (br_x br_y : Nat) (cap : Nat) : Grid S :=
  let _ := cap
  let g : Grid S :=
    { elems := [ElemHolder.new tl tlState tl_x tl_y, ElemHolder.new br brState br_x br_y]
      focus := 0 }
  g.modifyState g.focus (fun i s => i.select s)

/-- `Grid::add_elem`: push a holder, return its handle. -/
def Grid.add_elem (g : Grid S) (impl : ElemImpl S) (st : S) (x y : Nat) : Grid S × Nat :=
  let elems := g.elems ++ [ElemHolder.new impl st x y]
  ({ g with elems := elems }, elems.length - 1)

/-- `Grid::connect_up_down`: both handles are bounds-checked (`up` first,
as the source's first `?` fires first), then `upper.down = down` and
`lower.up = up` are written in that order. -/
def Grid.connect_up_down (g : Grid S) (up down : Nat) : Except Nat (Grid S) :=
  if up < g.elems.length then
    if down < g.elems.length then
      .ok ((g.modifyHolder up (fun e => { e with down := (down : Int) })).modifyHolder
        down (fun e => { e with up := (up : Int) }))
    else .error down
  else .error up

/-- `Grid::connect_left_right`; analogous to `connect_up_down`. -/
def Grid.connect_left_right (g : Grid S) (left right : Nat) : Except Nat (Grid S) :=
  if left < g.elems.length then
    if right < g.elems.length then
      .ok ((g.modifyHolder left (fun e => { e with right := (right : Int) })).modifyHolder
        right (fun e => { e with left := (left : Int) }))
    else .error right
  else .error left

/-- `Grid::move_up`: if the focused entry has an up-neighbor, unselect the
focused element, move focus there and fire `enter_bottom`; otherwise report
`MoveUp` unchanged.  (The `none` branch is the unreachable out-of-bounds
`focus` access.) -/
def Grid.move_up (g : Grid S) : Grid S × Response :=
  match g.elems.get? g.focus with
  | none => (g, .MoveUp)
  | some e =>
    if 0 ≤ e.up then
      let g1 := g.modifyState g.focus (fun i s => i.unselect s)
      let g2 : Grid S := { g1 with focus := e.up.toNat }
      (g2.modifyState g2.focus (fun i s => i.enterBottom s), .Contained)
    else (g, .MoveUp)

/-- `Grid::move_down`; destination hook is `enter_top`. -/
def Grid.move_down (g : Grid S) : Grid S × Response :=
  match g.elems.get? g.focus with
  | none => (g, .MoveDown)
  | some e =>
    if 0 ≤ e.down then
      let g1 := g.modifyState g.focus (fun i s => i.unselect s)
      let g2 : Grid S := { g1 with focus := e.down.toNat }
      (g2.modifyState g2.focus (fun i s => i.enterTop s), .Contained)
    else (g, .MoveDown)

/-- `Grid::move_right`; destination hook is `enter_left`. -/
def Grid.move_right (g : Grid S) : Grid S × Response :=
  match g.elems.get? g.focus with
  | none => (g, .MoveRight)
  | some e =>
    if 0 ≤ e.right then
      let g1 := g.modifyState g.focus (fun i s => i.unselect s)
      let g2 : Grid S := { g1 with focus := e.right.toNat }
      (g2.modifyState g2.focus (fun i s => i.enterLeft s), .Contained)
    else (g, .MoveRight)

/-- `Grid::move_left`; destination hook is `enter_right`. -/
def Grid.move_left (g : Grid S) : Grid S × Response :=
  match g.elems.get? g.focus with
  | none => (g, .MoveLeft)
  | some e =>
    if 0 ≤ e.left then
      let g1 := g.modifyState g.focus (fun i s => i.unselect s)
      let g2 : Grid S := { g1 with focus := e.left.toNat }
      (g2.modifyState g2.focus (fun i s => i.enterRight s), .Contained)
    else (g, .MoveLeft)

/-- `Grid::alert_all`: for each target handle, a bounds-checked `get_mut`
(a miss is silently skipped), then `alert()` on the element; a returned
handle list is processed recursively before moving to the next target.
The recursion of the source is unbounded, so it is modelled with `fuel`;
`none` means the fuel ran out, never an error of the source. -/
def Grid.alert_all : Nat → Grid S → List Nat → Option (Grid S)
  | 0, _, _ => none
  | _ + 1, g, [] => some g
  | fuel + 1, g, t :: rest =>
    match g.elems.get? t with
    | none => Grid.alert_all fuel g rest
    | some e =>
      let res := e.impl.alert e.state
      let g' : Grid S := { g with elems := g.elems.set t { e with state := res.1 } }
      match res.2 with
      | none => Grid.alert_all fuel g' rest
      | some ts =>
        match Grid.alert_all fuel g' ts with
        | none => none
        | some g'' => Grid.alert_all fuel g'' rest

/-- `<Grid as Element>::respond` from `src/lib.rs`: deliver the input to the
focused element first, then act on its verdict.  `none` is either the
unreachable out-of-bounds focus access or alert-fuel exhaustion. -/
def Grid.respond (fuel : Nat) (g : Grid S) (input : Char) : Option (Grid S × Response) :=
  match g.elems.get? g.focus with
  | none => none
  | some e =>
    let res := e.impl.respond e.state input
    let g' : Grid S := { g with elems := g.elems.set g.focus { e with state := res.1 } }
    match res.2 with
    | .MoveUp => some g'.move_up
    | .MoveDown => some g'.move_down
    | .MoveRight => some g'.move_right
    | .MoveLeft => some g'.move_left
    | .Contained => some (g', .Contained)
    | .Alert ts => (Grid.alert_all fuel g' ts).map (fun g'' => (g'', .Contained))

/-- `<Grid as Element>::select`: reset focus to `TL_IDX = 0`, then select
the (new) focused element. -/
def Grid.select (g : Grid S) : Grid S :=
  ({ g with focus := 0 } : Grid S).modifyState 0 (fun i s => i.select s)

/-- `<Grid as Element>::enter_top`: focus to `TL_IDX = 0`, forward hook. -/
def Grid.enter_top (g : Grid S) : Grid S :=
  ({ g with focus := 0 } : Grid S).modifyState 0 (fun i s => i.enterTop s)

/-- `<Grid as Element>::enter_bottom`: focus to `BR_IDX = 1`, forward hook. -/
def Grid.enter_bottom (g : Grid S) : Grid S :=
  ({ g with focus := 1 } : Grid S).modifyState 1 (fun i s => i.enterBottom s)

/-- `<Grid as Element>::enter_right`: focus to `BR_IDX = 1`, forward hook. -/
def Grid.enter_right (g : Grid S) : Grid S :=
  ({ g with focus := 1 } : Grid S).modifyState 1 (fun i s => i.enterRight s)

/-- `<Grid as Element>::enter_left`: focus to `TL_IDX = 0`, forward hook. -/
def Grid.enter_left (g : Grid S) : Grid S :=
  ({ g with focus := 0 } : Grid S).modifyState 0 (fun i s => i.enterLeft s)

/-! ## `src/util.rs`: the dirty-tracking decorator `Updater` -/

/-- The `Response` type of the API generation that `src/util.rs` belongs to.
`src/util.rs` matches on `Response::Nothing` (the pass-through verdict) and
`src/src/util.rs`'s `TextScroller` also returns `Contained` and the four move
requests; the enum itself is not under `src`.  Modelled from the spec: §4.2
lists the verdicts handled-internally, unrecognized/pass-through, the four
move requests and an alert list of handles. -/
inductive UResponse where
  | Nothing : UResponse
  | Contained : UResponse
  | MoveUp : UResponse
  | MoveDown : UResponse
  | MoveRight : UResponse
  | MoveLeft : UResponse
  | Alert : List Nat → UResponse
deriving DecidableEq

/-- An element of the `src/util.rs` API generation (`draw` takes `selected`,
`alert` returns nothing), as a bundle of pure methods over a state `S`. -/
structure UElemImpl (S : Type) where
  draw : S → Canvas → Nat → Nat → Bool → Canvas
  advance : S → S
  respond : S → Char → S × UResponse
  enterTop : S → S
  enterBottom : S → S
  enterRight : S → S
  enterLeft : S → S
  alert : S → S

/-- `Updater::new`: wraps an inner state, dirty bit initialized `true`.
The decorator's state is the pair (inner state, `updated`). -/
def Updater.new (s : S) : S × Bool := (s, true)

/-- `<Updater as Element>::draw`: forwards only while `updated` is set. -/
def Updater.draw (impl : UElemImpl S) (su : S × Bool) (c : Canvas) (x y : Nat)
    (selected : Bool) : Canvas :=
  if su.2 then impl.draw su.1 c x y selected else c

/-- `<Updater as Element>::advance`: forward, then clear the bit. -/
def Updater.advance (impl : UElemImpl S) (su : S × Bool) : S × Bool :=
  (impl.advance su.1, false)

/-- `<Updater as Element>::respond`: forward; a non-`Nothing` verdict sets
the bit, a `Nothing` verdict leaves it alone. -/
def Updater.respond (impl : UElemImpl S) (su : S × Bool) (input : Char) :
    (S × Bool) × UResponse :=
  let res := impl.respond su.1 input
  match res.2 with
  | .Nothing => ((res.1, su.2), .Nothing)
  | r => ((res.1, true), r)

/-- `<Updater as Element>::enter_top`: set the bit, forward. -/
def Updater.enter_top (impl : UElemImpl S) (su : S × Bool) : S × Bool :=
  (impl.enterTop su.1, true)

/-- `<Updater as Element>::enter_bottom`. -/
def Updater.enter_bottom (impl : UElemImpl S) (su : S × Bool) : S × Bool :=
  (impl.enterBottom su.1, true)

/-- `<Updater as Element>::enter_right`. -/
def Updater.enter_right (impl : UElemImpl S) (su : S × Bool) : S × Bool :=
  (impl.enterRight su.1, true)

/-- `<Updater as Element>::enter_left`. -/
def Updater.enter_left (impl : UElemImpl S) (su : S × Bool) : S × Bool :=
  (impl.enterLeft su.1, true)

/-- `<Updater as Element>::alert`: set the bit, forward. -/
def Updater.alert (impl : UElemImpl S) (su : S × Bool) : S × Bool :=
  (impl.alert su.1, true)

/-! ## Statement scaffolding: directions, operation sequences, invariants -/

/-- The four focus-move directions (statement scaffolding only). -/
inductive Dir where
  | up : Dir
  | down : Dir
  | right : Dir
  | left : Dir

/-- The move request a direction corresponds to. -/
def Dir.response : Dir → Response
  | .up => .MoveUp
  | .down => .MoveDown
  | .right => .MoveRight
  | .left => .MoveLeft

/-- The neighbor slot of an entry in a given direction. -/
def Dir.neighbor : Dir → ElemHolder S → Int
  | .up, e => e.up
  | .down, e => e.down
  | .right, e => e.right
  | .left, e => e.left

/-- The entry hook `Grid::move_*` fires on the destination: the edge
opposite to the movement (down enters from the top, and so on). -/
def Dir.entryHook : Dir → ElemImpl S → S → S
  | .up, i, s => i.enterBottom s
  | .down, i, s => i.enterTop s
  | .right, i, s => i.enterLeft s
  | .left, i, s => i.enterRight s

/-- One externally invokable mutating `Grid` operation. -/
inductive GridOp (S : Type) where
  | addElem (impl : ElemImpl S) (st : S) (x y : Nat) : GridOp S
  | connectUpDown (a b : Nat) : GridOp S
  | connectLeftRight (a b : Nat) : GridOp S
  | respond (input : Char) (fuel : Nat) : GridOp S

/-- Apply one operation (a failed connect returns the error to the caller
and leaves the grid as it was; exhausted alert fuel is cut off). -/
def Grid.applyOp (g : Grid S) : GridOp S → Grid S
  | .addElem impl st x y => (g.add_elem impl st x y).1
  | .connectUpDown a b =>
    match g.connect_up_down a b with
    | .ok g' => g'
    | .error _ => g
  | .connectLeftRight a b =>
    match g.connect_left_right a b with
    | .ok g' => g'
    | .error _ => g
  | .respond input fuel =>
    match Grid.respond fuel g input with
    | some gr => gr.1
    | none => g

/-- All four neighbor slots of a holder that are set (non-negative) index a
live entry of a collection of length `len`. -/
def NbOk (len : Nat) (e : ElemHolder S) : Prop :=
  (0 ≤ e.up → e.up.toNat < len) ∧
  (0 ≤ e.down → e.down.toNat < len) ∧
  (0 ≤ e.right → e.right.toNat < len) ∧
  (0 ≤ e.left → e.left.toNat < len)

/-- The focus/neighbor well-formedness invariant of a `Grid`: the focus and
every non-negative neighbor slot index a live entry. -/
def Grid.Wf (g : Grid S) : Prop :=
  g.focus < g.elems.length ∧
  ∀ i e, g.elems.get? i = some e → NbOk g.elems.length e

/-! ## Helper lemmas -/

theorem List.get?_set_self {l : List α} {i : Nat} {a : α} (h : i < l.length) :
    (l.set i a).get? i = some a := by
  simp [List.get?_eq_getElem?, List.getElem?_set_eq_of_lt, h]

theorem List.get?_set_other {l : List α} {i j : Nat} {a : α} (h : i ≠ j) :
    (l.set i a).get? j = l.get? j := by
  simp [List.get?_eq_getElem?, List.getElem?_set_ne, h]

theorem List.get?_some_lt {l : List α} {i : Nat} {a : α} (h : l.get? i = some a) :
    i < l.length := (List.get?_eq_some.mp h).choose

theorem Grid.modifyHolder_focus (g : Grid S) (i : Nat) (f : ElemHolder S → ElemHolder S) :
    (g.modifyHolder i f).focus = g.focus := by
  unfold Grid.modifyHolder
  cases g.elems.get? i <;> rfl

theorem Grid.modifyHolder_length (g : Grid S) (i : Nat) (f : ElemHolder S → ElemHolder S) :
    (g.modifyHolder i f).elems.length = g.elems.length := by
  unfold Grid.modifyHolder
  cases h : g.elems.get? i
  · rfl
  · simp [List.length_set]

theorem Grid.modifyHolder_get_self {g : Grid S} {i : Nat} {e : ElemHolder S}
    (h : g.elems.get? i = some e) (f : ElemHolder S → ElemHolder S) :
    (g.modifyHolder i f).elems.get? i = some (f e) := by
  unfold Grid.modifyHolder
  rw [h]
  exact List.get?_set_self (List.get?_some_lt h)

theorem Grid.modifyHolder_get_other (g : Grid S) {i j : Nat} (h : i ≠ j)
    (f : ElemHolder S → ElemHolder S) :
    (g.modifyHolder i f).elems.get? j = g.elems.get? j := by
  unfold Grid.modifyHolder
  cases g.elems.get? i
  · rfl
  · exact List.get?_set_other h

/-! ## Claim C9: out-of-bounds text writes are no-ops -/

/-- C9: for every canvas, a `Canvas::text` call whose starting position lies
outside the canvas (`x ≥ width` or `y ≥ height`) leaves the canvas (every
cell's character and style-transition field) unchanged, for any text and
style arguments. -/
theorem canvas_text_oob (c : Canvas) (t : List Char) (x y : Nat) (s : TextStyles)
    (h : c.width ≤ x ∨ c.height ≤ y) : c.text t x y s = c := by
  unfold Canvas.text
  rw [if_pos h]

/-- Witness for `canvas_text_oob` at the source's own
`out_of_bounds_works` test input. -/
theorem canvas_text_oob_witness :
    (Canvas.new 10 10 '#').text ['f', 'o', 'o'] 12 12 (TextStyles.new.underline true) =
      Canvas.new 10 10 '#' :=
  canvas_text_oob _ _ _ _ _ (Or.inl (by decide))

/-! ## Claim C2: how overlapping style applications combine -/

/-- C2 counterexample: writing `"a"` at (0,0) with bold leaves the cell with
flags `0x11` (bold-ON, bold-OFF); a second, independent write of `"a"` at the
same cell with underline leaves flags `0x44`, not `0x11 ||| 0x44 = 0x55`:
the bold-ON bit (bit 0) the first call set has been cleared by the second
call's ON application, refuting "applying ON bits never clears ON bits that
an earlier call set". -/
theorem set_styles_or_cex :
    (((Canvas.new 1 1 ' ').text ['a'] 0 0 (TextStyles.new.bold true)).get 0 0 =
      some ⟨'a', 0x11⟩)
  ∧ ((((Canvas.new 1 1 ' ').text ['a'] 0 0 (TextStyles.new.bold true)).text ['a'] 0 0
        (TextStyles.new.underline true)).get 0 0 = some ⟨'a', 0x44⟩)
  ∧ (0x44 &&& 0x01 = 0)
  ∧ ¬(0x44 = 0x11 ||| 0x44) := by decide

set_option maxRecDepth 4000 in
theorem nibble_facts : ∀ f, f < 256 → ∀ i, i < 16 →
    ((((f &&& 0xF0) ||| i) &&& 0xF0 = f &&& 0xF0) ∧ (((f &&& 0xF0) ||| i) &&& 0x0F = i)) ∧
    ((((f &&& 0x0F) ||| ((i <<< 4) % 256)) &&& 0x0F = f &&& 0x0F) ∧
      (((f &&& 0x0F) ||| ((i <<< 4) % 256)) >>> 4 = i)) := by decide

/-- C2 amended: applying ON bits to a cell replaces the cell's ON nibble
(bits 0–3) with the new call's ON bits while leaving the OFF nibble
(bits 4–7) untouched, and symmetrically applying OFF bits replaces the OFF
nibble and preserves the ON nibble.  So bits of the *opposite* half set by
an earlier call are never cleared, but same-half bits of an earlier call are
overwritten rather than OR-combined. -/
theorem set_styles_nibbles (ch : Char) (f i : Nat) (hf : f < 256) (hi : i < 16) :
    (((Pixel.mk ch f).set_styles_on ⟨i⟩).flags &&& 0xF0 = f &&& 0xF0)
  ∧ (((Pixel.mk ch f).set_styles_on ⟨i⟩).flags &&& 0x0F = i)
  ∧ (((Pixel.mk ch f).set_styles_off ⟨i⟩).flags &&& 0x0F = f &&& 0x0F)
  ∧ (((Pixel.mk ch f).set_styles_off ⟨i⟩).flags >>> 4 = i) := by
  have h := nibble_facts f hf i hi
  exact ⟨h.1.1, h.1.2, h.2.1, h.2.2⟩

/-- Witness for `set_styles_nibbles` at the counterexample's cell. -/
theorem set_styles_nibbles_witness :
    (((Pixel.mk 'a' 0x11).set_styles_on ⟨4⟩).flags &&& 0xF0 = 0x11 &&& 0xF0)
  ∧ (((Pixel.mk 'a' 0x11).set_styles_on ⟨4⟩).flags &&& 0x0F = 4)
  ∧ (((Pixel.mk 'a' 0x11).set_styles_off ⟨4⟩).flags &&& 0x0F = 0x11 &&& 0x0F)
  ∧ (((Pixel.mk 'a' 0x11).set_styles_off ⟨4⟩).flags >>> 4 = 4) :=
  set_styles_nibbles 'a' 0x11 4 (by decide) (by decide)

/-! ## Claim C3: the `"ab\ncd"` scenario -/

/-- The canvas of the C3 scenario: `"ab\ncd"` written at (1,1) on a 10×10
canvas with only underline set. -/
def c3canvas : Canvas :=
  (Canvas.new 10 10 ' ').text ("ab\ncd".toList) 1 1 (TextStyles.new.underline true)

/-- C3 counterexample: cell (1,2) carries the underline-ON bit
(flags `4 = 1 <<< UNDERLINE_POS`) and cell (2,1) carries the underline-OFF
bit (flags `0x40`), refuting "underline-ON at (1,1) and underline-OFF at
(2,2) only". -/
theorem c3_extra_bits_cex :
    (c3canvas.get 1 2 = some ⟨'c', 4⟩) ∧ (c3canvas.get 2 1 = some ⟨'b', 0x40⟩) ∧
    (4 &&& (1 <<< 2) ≠ 0) ∧ (0x40 &&& ((1 <<< 2) <<< 4) ≠ 0) := by decide

/-- C3 amended: the characters land as claimed ('a','b','c','d' at
(1,1),(2,1),(1,2),(2,2)), but each *line* is a styled run of its own:
underline-ON is set at (1,1) and (1,2) (first cell of each line) and
underline-OFF at (2,1) and (2,2) (last cell of each line); every other cell
of the canvas carries no style bits at all. -/
theorem c3_cells : ∀ x, x < 10 → ∀ y, y < 10 →
    c3canvas.get x y = some ⟨
      (if x = 1 ∧ y = 1 then 'a' else if x = 2 ∧ y = 1 then 'b'
       else if x = 1 ∧ y = 2 then 'c' else if x = 2 ∧ y = 2 then 'd' else ' '),
      (if (x = 1 ∧ y = 1) ∨ (x = 1 ∧ y = 2) then 4
       else if (x = 2 ∧ y = 1) ∨ (x = 2 ∧ y = 2) then 0x40 else 0)⟩ := by decide

/-- Witness for `c3_cells` at cell (1,1). -/
theorem c3_cells_witness : c3canvas.get 1 1 = some ⟨'a', 4⟩ :=
  c3_cells 1 (by decide) 1 (by decide)

/-! ## Claim C4: the default `respond` of the widget contract -/

/-- A minimal element of the `src/lib.rs` API: it keeps the trait's default
`respond` (and the other defaults), over the trivial state `Unit`. -/
def c4impl : ElemImpl Unit :=
  { select := id, unselect := id, advance := id
    respond := fun s c => (s, defaultRespond c)
    enterTop := id, enterBottom := id, enterRight := id, enterLeft := id
    alert := fun s => (s, none) }

/-- Two default elements, 0 wired above 1. -/
def c4grid : Grid Unit :=
  (Grid.with_capacity c4impl () 0 0 c4impl () 1 1 0).applyOp (.connectUpDown 0 1)

/-- C4 counterexample: `src/lib.rs`'s `Response` has no pass-through variant
distinct from the handled verdict.  The default `respond` returns
`Response::Contained` for the unrecognized symbol 'x' — and `Contained` is
exactly the verdict a `Grid` reports to its caller after handling an input
(here: a successful focus move), so the claimed "unrecognized/pass-through
verdict, as distinct from the handled-internally verdict" does not exist. -/
theorem default_respond_cex :
    defaultRespond 'x' = Response.Contained ∧
    (Grid.respond 1 c4grid DOWN).map Prod.snd = some Response.Contained := by
  exact ⟨rfl, rfl⟩

/-- C4 amended: the default `respond` maps the four directional symbols to
the corresponding move requests, and returns `Response::Contained` — the
same variant that signals handled-internally; this `Response` type has no
separate pass-through verdict — for every other input symbol. -/
theorem default_respond_table :
    defaultRespond UP = Response.MoveUp ∧ defaultRespond DOWN = Response.MoveDown ∧
    defaultRespond RIGHT = Response.MoveRight ∧ defaultRespond LEFT = Response.MoveLeft ∧
    ∀ c : Char, c ≠ UP → c ≠ DOWN → c ≠ RIGHT → c ≠ LEFT →
      defaultRespond c = Response.Contained := by
  refine ⟨rfl, rfl, rfl, rfl, fun c h1 h2 h3 h4 => ?_⟩
  unfold defaultRespond
  rw [if_neg h1, if_neg h2, if_neg h3, if_neg h4]

/-- Witness for `default_respond_table` at the symbol 'x'. -/
theorem default_respond_table_witness : defaultRespond 'x' = Response.Contained :=
  default_respond_table.2.2.2.2 'x' (by decide) (by decide) (by decide) (by decide)

/-! ## Claim C10: entering a grid repositions its focus -/

/-- A concrete element over a `List String` event log: every hook appends
its name; `respond` keeps the trait's default verdict table. -/
def logImpl : ElemImpl (List String) :=
  { select := fun s => s ++ ["select"]
    unselect := fun s => s ++ ["unselect"]
    advance := fun s => s ++ ["advance"]
    respond := fun s c => (s ++ ["respond"], defaultRespond c)
    enterTop := fun s => s ++ ["enter_top"]
    enterBottom := fun s => s ++ ["enter_bottom"]
    enterRight := fun s => s ++ ["enter_right"]
    enterLeft := fun s => s ++ ["enter_left"]
    alert := fun s => (s ++ ["alert"], none) }

/-- C10: when a `Grid` is entered from an edge its focus is repositioned
regardless of which entry previously held it: `enter_top`/`enter_left` put
focus on the top-left entry (index 0) and forward the same hook to that
entry's widget, `enter_bottom`/`enter_right` put focus on the bottom-right
entry (index 1) and forward the hook, and `select` resets focus to the
top-left entry before selecting it. -/
theorem grid_enter_hooks (S : Type) (g : Grid S) (e0 e1 : ElemHolder S)
    (he0 : g.elems.get? 0 = some e0) (he1 : g.elems.get? 1 = some e1) :
    (Grid.enter_top g =
      { g with focus := 0, elems := g.elems.set 0 { e0 with state := e0.impl.enterTop e0.state } })
  ∧ (Grid.enter_left g =
      { g with focus := 0, elems := g.elems.set 0 { e0 with state := e0.impl.enterLeft e0.state } })
  ∧ (Grid.enter_bottom g =
      { g with focus := 1, elems := g.elems.set 1 { e1 with state := e1.impl.enterBottom e1.state } })
  ∧ (Grid.enter_right g =
      { g with focus := 1, elems := g.elems.set 1 { e1 with state := e1.impl.enterRight e1.state } })
  ∧ (Grid.select g =
      { g with focus := 0, elems := g.elems.set 0 { e0 with state := e0.impl.select e0.state } })
  ∧ (∀ n, Grid.enter_top { g with focus := n } = Grid.enter_top g)
  ∧ (∀ n, Grid.enter_bottom { g with focus := n } = Grid.enter_bottom g)
  ∧ (∀ n, Grid.enter_right { g with focus := n } = Grid.enter_right g)
  ∧ (∀ n, Grid.enter_left { g with focus := n } = Grid.enter_left g)
  ∧ (∀ n, Grid.select { g with focus := n } = Grid.select g) := by
  have h0 : g.elems[0]? = some e0 := by simpa [List.get?_eq_getElem?] using he0
  have h1 : g.elems[1]? = some e1 := by simpa [List.get?_eq_getElem?] using he1
  refine ⟨?_, ?_, ?_, ?_, ?_, fun n => rfl, fun n => rfl, fun n => rfl, fun n => rfl, fun n => rfl⟩
  all_goals
    simp [Grid.enter_top, Grid.enter_left, Grid.enter_bottom, Grid.enter_right, Grid.select,
      Grid.modifyState, Grid.modifyHolder, h0, h1]

/-- Two logging entries at (0,0) and (5,5). -/
def c10grid : Grid (List String) :=
  Grid.with_capacity logImpl [] 0 0 logImpl [] 5 5 0

/-- Witness for `grid_enter_hooks`: entering `c10grid` from the bottom puts
focus on entry 1 and fires that entry's `enter_bottom`. -/
theorem grid_enter_hooks_witness :
    Grid.enter_bottom c10grid =
      { c10grid with
        focus := 1
        elems := c10grid.elems.set 1
          { (ElemHolder.new logImpl [] 5 5) with state := ["enter_bottom"] } } :=
  (grid_enter_hooks (List String) c10grid
    { (ElemHolder.new logImpl [] 0 0) with state := ["select"] }
    (ElemHolder.new logImpl [] 5 5) rfl rfl).2.2.1

/-! ## Claim C1: directional move requests inside `Grid::respond` -/

/-- The `Grid::move_*` method a direction dispatches to (scaffolding). -/
def Dir.move : Dir → Grid S → Grid S × Response
  | .up => Grid.move_up
  | .down => Grid.move_down
  | .right => Grid.move_right
  | .left => Grid.move_left

theorem dir_move_spec (d : Dir) (g : Grid S) (e : ElemHolder S)
    (he : g.elems.get? g.focus = some e) :
    (0 ≤ d.neighbor e →
      (d.move g).2 = .Contained ∧
      (d.move g).1.focus = (d.neighbor e).toNat ∧
      (d.move g).1.elems.length = g.elems.length ∧
      ((d.neighbor e).toNat ≠ g.focus →
        (d.move g).1.elems.get? g.focus = some { e with state := e.impl.unselect e.state } ∧
        ∀ e2, g.elems.get? (d.neighbor e).toNat = some e2 →
          (d.move g).1.elems.get? (d.neighbor e).toNat =
            some { e2 with state := d.entryHook e2.impl e2.state }))
  ∧ (d.neighbor e < 0 → d.move g = (g, d.response)) := by
  cases d <;>
  · simp only [Dir.move, Dir.neighbor, Dir.entryHook, Dir.response]
    constructor
    · intro hge
      simp only [Grid.move_up, Grid.move_down, Grid.move_right, Grid.move_left, he, if_pos hge]
      refine ⟨trivial, ?_, ?_, fun hne => ⟨?_, fun e2 he2 => ?_⟩⟩
      · simp [Grid.modifyState, Grid.modifyHolder_focus]
      · simp [Grid.modifyState, Grid.modifyHolder_length]
      · rw [Grid.modifyState, Grid.modifyHolder_get_other _ hne]
        exact Grid.modifyHolder_get_self he _
      · rw [Grid.modifyState, Grid.modifyHolder_get_self
          (Grid.modifyHolder_get_other _ (Ne.symm hne) _ ▸ he2)]
    · intro hlt
      simp only [Grid.move_up, Grid.move_down, Grid.move_right, Grid.move_left, he]
      rw [if_neg (by omega)]

theorem Dir.neighbor_state (d : Dir) (e : ElemHolder S) (st : S) :
    d.neighbor { e with state := st } = d.neighbor e := by
  cases d <;> rfl

/-- C1: when the focused child's `respond(input)` returns a directional move
request, `Grid::respond` checks the focused entry's neighbor slot in that
direction.  If a neighbor exists, it unselects the previously focused widget
(after that widget's own `respond` mutation), moves the focus index to the
neighbor, fires the destination widget's opposite-edge entry hook (down →
`enter_top`, up → `enter_bottom`, right → `enter_left`, left →
`enter_right`) and reports `Contained`; if no neighbor exists, it returns
the same directional move request with the focus index unchanged (only the
focused child's state was updated by its own `respond`). -/
theorem grid_respond_move (S : Type) (g : Grid S) (input : Char) (fuel : Nat) (d : Dir)
    (e : ElemHolder S) (he : g.elems.get? g.focus = some e)
    (s' : S) (hr : e.impl.respond e.state input = (s', d.response)) :
    (0 ≤ d.neighbor e →
      ∃ g2, Grid.respond fuel g input = some (g2, .Contained) ∧
        g2.focus = (d.neighbor e).toNat ∧
        g2.elems.length = g.elems.length ∧
        ((d.neighbor e).toNat ≠ g.focus →
          g2.elems.get? g.focus = some { e with state := e.impl.unselect s' } ∧
          ∀ e2, g.elems.get? (d.neighbor e).toNat = some e2 →
            g2.elems.get? (d.neighbor e).toNat =
              some { e2 with state := d.entryHook e2.impl e2.state }))
  ∧ (d.neighbor e < 0 →
      Grid.respond fuel g input =
        some ({ g with elems := g.elems.set g.focus { e with state := s' } }, d.response)) := by
  have hlen := List.get?_some_lt he
  have hresp : Grid.respond fuel g input =
      some (d.move { g with elems := g.elems.set g.focus { e with state := s' } }) := by
    cases d <;> simp only [Grid.respond, he, hr, Dir.move, Dir.response]
  have he' : ({ g with elems := g.elems.set g.focus { e with state := s' } } : Grid S).elems.get?
      g.focus = some { e with state := s' } :=
    List.get?_set_self (by simpa using hlen)
  have spec := dir_move_spec d _ _ he'
  constructor
  · intro hge
    have hge' : 0 ≤ d.neighbor ({ e with state := s' } : ElemHolder S) := by
      rwa [Dir.neighbor_state]
    obtain ⟨hcont, hfoc, hlen2, hrest⟩ := spec.1 hge'
    refine ⟨(d.move { g with elems := g.elems.set g.focus { e with state := s' } }).1,
      ?_, ?_, ?_, fun hne => ?_⟩
    · rw [hresp, ← hcont]
    · rw [hfoc, Dir.neighbor_state]
    · rw [hlen2]; simp
    · rw [Dir.neighbor_state] at hrest
      obtain ⟨hun, hhook⟩ := hrest hne
      refine ⟨hun, fun e2 he2 => hhook e2 ?_⟩
      rw [List.get?_set_other (Ne.symm hne)]
      exact he2
  · intro hlt
    have hlt' : d.neighbor ({ e with state := s' } : ElemHolder S) < 0 := by
      rwa [Dir.neighbor_state]
    rw [hresp, spec.2 hlt']

/-- The source test's layout, reduced to two entries: top-left at (1,1)
above bottom-right at (3,3), wired by `connect_up_down`. -/
def c1grid : Grid (List String) :=
  (Grid.with_capacity logImpl [] 1 1 logImpl [] 3 3 10).applyOp (.connectUpDown 0 1)

/-- Witness for `grid_respond_move`: sending `DOWN` to `c1grid` moves focus
from entry 0 to entry 1 and reports `Contained`. -/
theorem grid_respond_move_witness :
    (Grid.respond 1 c1grid DOWN).map (fun p => (p.1.focus, p.2)) =
      some (1, Response.Contained) := by
  obtain ⟨g2, hresp, hfoc, -, -⟩ :=
    (grid_respond_move (List String) c1grid DOWN 1 Dir.down _ rfl _ rfl).1 (by decide)
  rw [hresp, Option.map_some']
  rw [hfoc]
  rfl

/-! ## Claim C7: alert broadcast handling -/

theorem alert_all_skip (S : Type) : ∀ (ts : List Nat) (fuel : Nat) (g : Grid S),
    ts.length < fuel → (∀ t ∈ ts, g.elems.length ≤ t) →
    Grid.alert_all fuel g ts = some g := by
  intro ts
  induction ts with
  | nil =>
    intro fuel g hf _
    cases fuel with
    | zero => omega
    | succ f => rfl
  | cons t rest ih =>
    intro fuel g hf hall
    cases fuel with
    | zero => omega
    | succ f =>
      have hnone : g.elems.get? t = none :=
        List.get?_eq_none.mpr (hall t (by simp))
      simp only [Grid.alert_all, hnone]
      exact ih f g (by simpa using Nat.lt_of_succ_lt_succ hf)
        (fun t2 ht2 => hall t2 (by simp [ht2]))

/-- C7: when the focused child's `respond` returns an alert list, the grid
runs `alert_all` over it and reports `Contained` to its caller (part 1);
handles that do not resolve to a live entry are skipped silently, with no
error and no state change at all (part 2); a handle that does resolve gets
`alert()` invoked on its element, and with no cascaded handles the only
change is that element's new state (part 3).  `fuel` bounds the recursion
depth of the source's unbounded cascade processing. -/
theorem grid_respond_alert (S : Type) (g : Grid S) (input : Char) (fuel : Nat)
    (e : ElemHolder S) (he : g.elems.get? g.focus = some e)
    (s' : S) (ts : List Nat)
    (hr : e.impl.respond e.state input = (s', .Alert ts))
    (g1 : Grid S)
    (hg1 : g1 = { g with elems := g.elems.set g.focus { e with state := s' } }) :
    (∀ g2, Grid.alert_all fuel g1 ts = some g2 →
      Grid.respond fuel g input = some (g2, .Contained))
  ∧ (ts.length < fuel → (∀ t ∈ ts, g.elems.length ≤ t) →
      Grid.alert_all fuel g1 ts = some g1)
  ∧ (∀ t e2 s2, ts = [t] → g1.elems.get? t = some e2 →
      e2.impl.alert e2.state = (s2, none) → 1 < fuel →
      Grid.respond fuel g input =
        some ({ g1 with elems := g1.elems.set t { e2 with state := s2 } }, .Contained)) := by
  subst hg1
  refine ⟨?_, ?_, ?_⟩
  · intro g2 h2
    simp only [Grid.respond, he, hr]
    rw [h2]
    rfl
  · intro hf hall
    refine alert_all_skip S ts fuel _ hf (fun t ht => ?_)
    rw [List.length_set]
    exact hall t ht
  · intro t e2 s2 hts he2 halert hfuel
    subst hts
    simp only [Grid.respond, he, hr]
    cases fuel with
    | zero => omega
    | succ f =>
      cases f with
      | zero => omega
      | succ f2 =>
        simp only [Grid.alert_all, he2, halert]
        rfl

/-- A logging element whose `respond` always broadcasts to handle 5. -/
def c7impl : ElemImpl (List String) :=
  { logImpl with respond := fun s _ => (s ++ ["respond"], .Alert [5]) }

/-- Two alert-broadcasting entries; handle 5 resolves to nothing. -/
def c7grid : Grid (List String) :=
  Grid.with_capacity c7impl [] 0 0 c7impl [] 1 1 0

/-- The focused entry of `c7grid` after its `respond` ran. -/
def c7entry0 : ElemHolder (List String) :=
  ⟨c7impl, ["select", "respond"], 0, 0, -1, -1, -1, -1⟩

/-- Witness for `grid_respond_alert`: the broadcast to the dangling handle 5
is silently skipped and the grid reports `Contained`; only the focused
child's own `respond` mutation remains. -/
theorem grid_respond_alert_witness :
    Grid.respond 2 c7grid 'z' =
      some ({ c7grid with elems := c7grid.elems.set 0 c7entry0 }, Response.Contained) := by
  have h := grid_respond_alert (List String) c7grid 'z' 2 _ rfl _ [5] rfl _ rfl
  exact h.1 _ (h.2.1 (by decide) (by decide))

/-! ## Claim C6: wiring neighbors with `connect_up_down` / `connect_left_right` -/

theorem List.get?_lt_exists {l : List α} {i : Nat} (h : i < l.length) :
    ∃ a, l.get? i = some a :=
  ⟨l.get ⟨i, h⟩, List.get?_eq_get h⟩

/-- C6: `connect_up_down(a, b)` (and `connect_left_right(a, b)`) succeeds
exactly when both handles index live entries; on success it sets entry a's
down-neighbor (right-neighbor) to b and entry b's up-neighbor
(left-neighbor) to a, overwriting the prior slot values, and touches nothing
else: no other entry, none of the other fields of a and b, not the focus,
not the entry count.  If a handle is out of range the call fails with an
error carrying that handle (the source checks the first argument first). -/
theorem grid_connect_spec (S : Type) (g : Grid S) (a b : Nat) :
    (g.elems.length ≤ a →
      g.connect_up_down a b = .error a ∧ g.connect_left_right a b = .error a)
  ∧ (a < g.elems.length → g.elems.length ≤ b →
      g.connect_up_down a b = .error b ∧ g.connect_left_right a b = .error b)
  ∧ ((a < g.elems.length ∧ b < g.elems.length) ↔ ∃ gu, g.connect_up_down a b = .ok gu)
  ∧ ((a < g.elems.length ∧ b < g.elems.length) ↔ ∃ gu, g.connect_left_right a b = .ok gu)
  ∧ (∀ gu, g.connect_up_down a b = .ok gu →
      gu.focus = g.focus ∧ gu.elems.length = g.elems.length ∧
      (∀ e, gu.elems.get? a = some e → e.down = (b : Int)) ∧
      (∀ e, gu.elems.get? b = some e → e.up = (a : Int)) ∧
      (∀ i, i ≠ a → i ≠ b → gu.elems.get? i = g.elems.get? i) ∧
      (∀ e e2, g.elems.get? a = some e → gu.elems.get? a = some e2 →
        e2.impl = e.impl ∧ e2.state = e.state ∧ e2.x = e.x ∧ e2.y = e.y ∧
        e2.right = e.right ∧ e2.left = e.left) ∧
      (∀ e e2, g.elems.get? b = some e → gu.elems.get? b = some e2 →
        e2.impl = e.impl ∧ e2.state = e.state ∧ e2.x = e.x ∧ e2.y = e.y ∧
        e2.right = e.right ∧ e2.left = e.left))
  ∧ (∀ gu, g.connect_left_right a b = .ok gu →
      gu.focus = g.focus ∧ gu.elems.length = g.elems.length ∧
      (∀ e, gu.elems.get? a = some e → e.right = (b : Int)) ∧
      (∀ e, gu.elems.get? b = some e → e.left = (a : Int)) ∧
      (∀ i, i ≠ a → i ≠ b → gu.elems.get? i = g.elems.get? i) ∧
      (∀ e e2, g.elems.get? a = some e → gu.elems.get? a = some e2 →
        e2.impl = e.impl ∧ e2.state = e.state ∧ e2.x = e.x ∧ e2.y = e.y ∧
        e2.up = e.up ∧ e2.down = e.down)) := by
  refine ⟨?_, ?_, ?_, ?_, ?_, ?_⟩
  · intro ha
    constructor <;>
    · simp only [Grid.connect_up_down, Grid.connect_left_right]
      rw [if_neg (by omega)]
  · intro ha hb
    constructor <;>
    · simp only [Grid.connect_up_down, Grid.connect_left_right]
      rw [if_pos ha, if_neg (by omega)]
  · constructor
    · rintro ⟨ha, hb⟩
      simp only [Grid.connect_up_down]
      rw [if_pos ha, if_pos hb]
      exact ⟨_, rfl⟩
    · rintro ⟨gu, hok⟩
      by_cases ha : a < g.elems.length
      · by_cases hb : b < g.elems.length
        · exact ⟨ha, hb⟩
        · simp only [Grid.connect_up_down, if_pos ha, if_neg hb] at hok
          exact Except.noConfusion hok
      · simp only [Grid.connect_up_down, if_neg ha] at hok
        exact Except.noConfusion hok
  · constructor
    · rintro ⟨ha, hb⟩
      simp only [Grid.connect_left_right]
      rw [if_pos ha, if_pos hb]
      exact ⟨_, rfl⟩
    · rintro ⟨gu, hok⟩
      by_cases ha : a < g.elems.length
      · by_cases hb : b < g.elems.length
        · exact ⟨ha, hb⟩
        · simp only [Grid.connect_left_right, if_pos ha, if_neg hb] at hok
          exact Except.noConfusion hok
      · simp only [Grid.connect_left_right, if_neg ha] at hok
        exact Except.noConfusion hok
  · intro gu hok
    by_cases ha : a < g.elems.length
    · by_cases hb : b < g.elems.length
      · simp only [Grid.connect_up_down, if_pos ha, if_pos hb, Except.ok.injEq] at hok
        subst hok
        obtain ⟨ea, hea⟩ := List.get?_lt_exists (l := g.elems) ha
        by_cases hab : a = b
        · subst hab
          have h1 : (g.modifyHolder a fun e => { e with down := (a : Int) }).elems.get? a =
              some { ea with down := (a : Int) } := Grid.modifyHolder_get_self hea _
          have h2 := Grid.modifyHolder_get_self h1 (fun e => { e with up := (a : Int) })
          refine ⟨by simp [Grid.modifyHolder_focus], by simp [Grid.modifyHolder_length],
            ?_, ?_, ?_, ?_, ?_⟩
          · intro e h3
            rw [h2] at h3
            cases h3
            rfl
          · intro e h3
            rw [h2] at h3
            cases h3
            rfl
          · intro i hia _
            rw [Grid.modifyHolder_get_other _ (fun h => hia h.symm),
              Grid.modifyHolder_get_other _ (fun h => hia h.symm)]
          · intro e e2 h3 h4
            rw [hea] at h3
            cases h3
            rw [h2] at h4
            cases h4
            exact ⟨rfl, rfl, rfl, rfl, rfl, rfl⟩
          · intro e e2 h3 h4
            rw [hea] at h3
            cases h3
            rw [h2] at h4
            cases h4
            exact ⟨rfl, rfl, rfl, rfl, rfl, rfl⟩
        · obtain ⟨eb, heb⟩ := List.get?_lt_exists (l := g.elems) hb
          have h1 : (g.modifyHolder a fun e => { e with down := (b : Int) }).elems.get? a =
              some { ea with down := (b : Int) } := Grid.modifyHolder_get_self hea _
          have h1b : (g.modifyHolder a fun e => { e with down := (b : Int) }).elems.get? b =
              some eb := by
            rw [Grid.modifyHolder_get_other _ hab]
            exact heb
          have h2a : ((g.modifyHolder a fun e => { e with down := (b : Int) }).modifyHolder b
              fun e => { e with up := (a : Int) }).elems.get? a =
              some { ea with down := (b : Int) } := by
            rw [Grid.modifyHolder_get_other _ (fun h => hab h.symm)]
            exact h1
          have h2b := Grid.modifyHolder_get_self h1b (fun e => { e with up := (a : Int) })
          refine ⟨by simp [Grid.modifyHolder_focus], by simp [Grid.modifyHolder_length],
            ?_, ?_, ?_, ?_, ?_⟩
          · intro e h3
            rw [h2a] at h3
            cases h3
            rfl
          · intro e h3
            rw [h2b] at h3
            cases h3
            rfl
          · intro i hia hib
            rw [Grid.modifyHolder_get_other _ (fun h => hib h.symm),
              Grid.modifyHolder_get_other _ (fun h => hia h.symm)]
          · intro e e2 h3 h4
            rw [hea] at h3
            cases h3
            rw [h2a] at h4
            cases h4
            exact ⟨rfl, rfl, rfl, rfl, rfl, rfl⟩
          · intro e e2 h3 h4
            rw [heb] at h3
            cases h3
            rw [h2b] at h4
            cases h4
            exact ⟨rfl, rfl, rfl, rfl, rfl, rfl⟩
      · simp only [Grid.connect_up_down, if_pos ha, if_neg hb] at hok
        exact Except.noConfusion hok
    · simp only [Grid.connect_up_down, if_neg ha] at hok
      exact Except.noConfusion hok
  · intro gu hok
    by_cases ha : a < g.elems.length
    · by_cases hb : b < g.elems.length
      · simp only [Grid.connect_left_right, if_pos ha, if_pos hb, Except.ok.injEq] at hok
        subst hok
        obtain ⟨ea, hea⟩ := List.get?_lt_exists (l := g.elems) ha
        by_cases hab : a = b
        · subst hab
          have h1 : (g.modifyHolder a fun e => { e with right := (a : Int) }).elems.get? a =
              some { ea with right := (a : Int) } := Grid.modifyHolder_get_self hea _
          have h2 := Grid.modifyHolder_get_self h1 (fun e => { e with left := (a : Int) })
          refine ⟨by simp [Grid.modifyHolder_focus], by simp [Grid.modifyHolder_length],
            ?_, ?_, ?_, ?_⟩
          · intro e h3
            rw [h2] at h3
            cases h3
            rfl
          · intro e h3
            rw [h2] at h3
            cases h3
            rfl
          · intro i hia _
            rw [Grid.modifyHolder_get_other _ (fun h => hia h.symm),
              Grid.modifyHolder_get_other _ (fun h => hia h.symm)]
          · intro e e2 h3 h4
            rw [hea] at h3
            cases h3
            rw [h2] at h4
            cases h4
            exact ⟨rfl, rfl, rfl, rfl, rfl, rfl⟩
        · obtain ⟨eb, heb⟩ := List.get?_lt_exists (l := g.elems) hb
          have h1 : (g.modifyHolder a fun e => { e with right := (b : Int) }).elems.get? a =
              some { ea with right := (b : Int) } := Grid.modifyHolder_get_self hea _
          have h1b : (g.modifyHolder a fun e => { e with right := (b : Int) }).elems.get? b =
              some eb := by
            rw [Grid.modifyHolder_get_other _ hab]
            exact heb
          have h2a : ((g.modifyHolder a fun e => { e with right := (b : Int) }).modifyHolder b
              fun e => { e with left := (a : Int) }).elems.get? a =
              some { ea with right := (b : Int) } := by
            rw [Grid.modifyHolder_get_other _ (fun h => hab h.symm)]
            exact h1
          have h2b := Grid.modifyHolder_get_self h1b (fun e => { e with left := (a : Int) })
          refine ⟨by simp [Grid.modifyHolder_focus], by simp [Grid.modifyHolder_length],
            ?_, ?_, ?_, ?_⟩
          · intro e h3
            rw [h2a] at h3
            cases h3
            rfl
          · intro e h3
            rw [h2b] at h3
            cases h3
            rfl
          · intro i hia hib
            rw [Grid.modifyHolder_get_other _ (fun h => hib h.symm),
              Grid.modifyHolder_get_other _ (fun h => hia h.symm)]
          · intro e e2 h3 h4
            rw [hea] at h3
            cases h3
            rw [h2a] at h4
            cases h4
            exact ⟨rfl, rfl, rfl, rfl, rfl, rfl⟩
      · simp only [Grid.connect_left_right, if_pos ha, if_neg hb] at hok
        exact Except.noConfusion hok
    · simp only [Grid.connect_left_right, if_neg ha] at hok
      exact Except.noConfusion hok

/-- Witness for `grid_connect_spec`: wiring the live entry 0 to the dead
handle 5 on a two-entry grid reports the invalid handle 5. -/
theorem grid_connect_spec_witness :
    Grid.connect_up_down c10grid 0 5 = Except.error 5 ∧
    Grid.connect_left_right c10grid 0 5 = Except.error 5 :=
  (grid_connect_spec (List String) c10grid 0 5).2.1 (by decide) (by decide)

/-! ## Claim C8: the dirty-tracking decorator -/

/-- C8: immediately after `advance` the decorator's `draw` is a no-op that
never consults the inner widget (part 1); a subsequent `respond` whose inner
verdict is anything but `Nothing` re-arms it, so `draw` forwards to the
inner widget's `draw` on the inner widget's current state (part 2), while a
`Nothing` verdict leaves it disarmed (part 3); and any `enter_*` or `alert`
call also re-arms it (parts 4–8). -/
theorem updater_dirty (S : Type) (impl : UElemImpl S) (su : S × Bool) :
    (∀ c x y sel, Updater.draw impl (Updater.advance impl su) c x y sel = c)
  ∧ (∀ input s2 r, impl.respond (Updater.advance impl su).1 input = (s2, r) →
      r ≠ .Nothing → ∀ c x y sel,
        Updater.draw impl (Updater.respond impl (Updater.advance impl su) input).1 c x y sel =
          impl.draw s2 c x y sel)
  ∧ (∀ input s2, impl.respond (Updater.advance impl su).1 input = (s2, .Nothing) →
      ∀ c x y sel,
        Updater.draw impl (Updater.respond impl (Updater.advance impl su) input).1 c x y sel = c)
  ∧ (∀ c x y sel,
      Updater.draw impl (Updater.enter_top impl (Updater.advance impl su)) c x y sel =
        impl.draw (impl.enterTop (impl.advance su.1)) c x y sel)
  ∧ (∀ c x y sel,
      Updater.draw impl (Updater.enter_bottom impl (Updater.advance impl su)) c x y sel =
        impl.draw (impl.enterBottom (impl.advance su.1)) c x y sel)
  ∧ (∀ c x y sel,
      Updater.draw impl (Updater.enter_right impl (Updater.advance impl su)) c x y sel =
        impl.draw (impl.enterRight (impl.advance su.1)) c x y sel)
  ∧ (∀ c x y sel,
      Updater.draw impl (Updater.enter_left impl (Updater.advance impl su)) c x y sel =
        impl.draw (impl.enterLeft (impl.advance su.1)) c x y sel)
  ∧ (∀ c x y sel,
      Updater.draw impl (Updater.alert impl (Updater.advance impl su)) c x y sel =
        impl.draw (impl.alert (impl.advance su.1)) c x y sel) := by
  refine ⟨fun c x y sel => rfl, ?_, ?_, fun c x y sel => rfl, fun c x y sel => rfl,
    fun c x y sel => rfl, fun c x y sel => rfl, fun c x y sel => rfl⟩
  · intro input s2 r hr hne c x y sel
    simp only [Updater.advance] at hr
    cases r
    case Nothing => exact absurd rfl hne
    all_goals
      simp [Updater.draw, Updater.respond, Updater.advance, hr]
  · intro input s2 hr c x y sel
    simp only [Updater.advance] at hr
    simp [Updater.draw, Updater.respond, Updater.advance, hr]

/-- A concrete inner widget over `Nat` state where every hook is
observable. -/
def c8impl : UElemImpl Nat :=
  { draw := fun s c _ _ _ => { c with pixels := c.pixels ++ List.replicate s ⟨'d', 0⟩ }
    advance := fun s => s + 1
    respond := fun s c => if c = 'q' then (s, .Nothing) else (s + 10, .Contained)
    enterTop := (· + 100)
    enterBottom := (· + 100)
    enterRight := (· + 100)
    enterLeft := (· + 100)
    alert := (· + 1000) }

/-- Witness for `updater_dirty`: after `advance` then a `Contained`-verdict
`respond`, `draw` forwards to the inner widget again. -/
theorem updater_dirty_witness :
    Updater.draw c8impl (Updater.respond c8impl (Updater.advance c8impl (0, true)) 'z').1
      (Canvas.new 1 1 ' ') 0 0 false = c8impl.draw 11 (Canvas.new 1 1 ' ') 0 0 false :=
  (updater_dirty Nat c8impl (0, true)).2.1 'z' 11 .Contained rfl (by decide)
    (Canvas.new 1 1 ' ') 0 0 false

/-! ## Claim C5: shape-preservation infrastructure -/

/-- Two holders agree on everything but the element state. -/
def HolderShape (e e2 : ElemHolder S) : Prop :=
  e2.impl = e.impl ∧ e2.x = e.x ∧ e2.y = e.y ∧
  e2.up = e.up ∧ e2.down = e.down ∧ e2.right = e.right ∧ e2.left = e.left

theorem holderShape_refl (e : ElemHolder S) : HolderShape e e :=
  ⟨rfl, rfl, rfl, rfl, rfl, rfl, rfl⟩

theorem holderShape_trans {e1 e2 e3 : ElemHolder S}
    (h1 : HolderShape e1 e2) (h2 : HolderShape e2 e3) : HolderShape e1 e3 := by
  obtain ⟨a1, b1, c1, d1, f1, g1, i1⟩ := h1
  obtain ⟨a2, b2, c2, d2, f2, g2, i2⟩ := h2
  exact ⟨a2.trans a1, b2.trans b1, c2.trans c1, d2.trans d1,
    f2.trans f1, g2.trans g1, i2.trans i1⟩

theorem nbOk_of_holderShape {e e2 : ElemHolder S} {len : Nat}
    (hs : HolderShape e e2) (h : NbOk len e) : NbOk len e2 := by
  obtain ⟨-, -, -, hu, hd, hr, hl⟩ := hs
  rw [NbOk, hu, hd, hr, hl]
  exact h

/-- The entry collections agree on length and everything but states
(the focus may differ). -/
def GridShape (g g2 : Grid S) : Prop :=
  g2.elems.length = g.elems.length ∧
  ∀ i e e2, g.elems.get? i = some e → g2.elems.get? i = some e2 → HolderShape e e2

/-- `g2` extends `g`: no entry was removed, and every pre-existing entry
keeps its element implementation and draw offset at the same index. -/
def GridExtends (g g2 : Grid S) : Prop :=
  g.elems.length ≤ g2.elems.length ∧
  ∀ i e e2, g.elems.get? i = some e → g2.elems.get? i = some e2 →
    e2.impl = e.impl ∧ e2.x = e.x ∧ e2.y = e.y

theorem gridShape_refl (g : Grid S) : GridShape g g :=
  ⟨rfl, fun _ e e2 h1 h2 => by
    rw [h1] at h2
    cases h2
    exact holderShape_refl e⟩

theorem gridShape_trans {g1 g2 g3 : Grid S}
    (h1 : GridShape g1 g2) (h2 : GridShape g2 g3) : GridShape g1 g3 := by
  refine ⟨h2.1.trans h1.1, fun i e e3 he he3 => ?_⟩
  obtain ⟨em, hem⟩ := List.get?_lt_exists (l := g2.elems)
    (h1.1 ▸ List.get?_some_lt he)
  exact holderShape_trans (h1.2 i e em he hem) (h2.2 i em e3 hem he3)

theorem gridExtends_refl (g : Grid S) : GridExtends g g :=
  ⟨Nat.le_refl _, fun _ e e2 h1 h2 => by
    rw [h1] at h2
    cases h2
    exact ⟨rfl, rfl, rfl⟩⟩

theorem gridExtends_trans {g1 g2 g3 : Grid S}
    (h1 : GridExtends g1 g2) (h2 : GridExtends g2 g3) : GridExtends g1 g3 := by
  refine ⟨h1.1.trans h2.1, fun i e e3 he he3 => ?_⟩
  obtain ⟨em, hem⟩ := List.get?_lt_exists (l := g2.elems)
    (Nat.lt_of_lt_of_le (List.get?_some_lt he) h1.1)
  obtain ⟨a1, b1, c1⟩ := h1.2 i e em he hem
  obtain ⟨a2, b2, c2⟩ := h2.2 i em e3 hem he3
  exact ⟨a2.trans a1, b2.trans b1, c2.trans c1⟩

theorem gridExtends_of_shape {g g2 : Grid S} (h : GridShape g g2) : GridExtends g g2 :=
  ⟨Nat.le_of_eq h.1.symm, fun i e e2 h1 h2 =>
    let hs := h.2 i e e2 h1 h2
    ⟨hs.1, hs.2.1, hs.2.2.1⟩⟩

theorem gridShape_modifyHolder (g : Grid S) (t : Nat) (f : ElemHolder S → ElemHolder S)
    (hf : ∀ e, HolderShape e (f e)) : GridShape g (g.modifyHolder t f) := by
  refine ⟨Grid.modifyHolder_length g t f, fun i e e2 h1 h2 => ?_⟩
  by_cases hit : i = t
  · subst hit
    rw [Grid.modifyHolder_get_self h1 f] at h2
    cases h2
    exact hf e
  · rw [Grid.modifyHolder_get_other _ (fun h => hit h.symm) f, h1] at h2
    cases h2
    exact holderShape_refl e

theorem gridShape_modifyState (g : Grid S) (t : Nat) (f : ElemImpl S → S → S) :
    GridShape g (g.modifyState t f) :=
  gridShape_modifyHolder g t _ (fun _ => ⟨rfl, rfl, rfl, rfl, rfl, rfl, rfl⟩)

theorem gridShape_set_state {g : Grid S} {t : Nat} {e : ElemHolder S} (s2 : S)
    (h : g.elems.get? t = some e) :
    GridShape g { g with elems := g.elems.set t { e with state := s2 } } := by
  refine ⟨by simp [List.length_set], fun i e1 e2 h1 h2 => ?_⟩
  by_cases hit : i = t
  · subst hit
    rw [h] at h1
    cases h1
    rw [List.get?_set_self (List.get?_some_lt h)] at h2
    cases h2
    exact ⟨rfl, rfl, rfl, rfl, rfl, rfl, rfl⟩
  · rw [List.get?_set_other (fun h2 => hit h2.symm), h1] at h2
    cases h2
    exact holderShape_refl e1

theorem nb_of_shape {g g2 : Grid S} (hs : GridShape g g2)
    (hwf : ∀ i e, g.elems.get? i = some e → NbOk g.elems.length e) :
    ∀ i e2, g2.elems.get? i = some e2 → NbOk g2.elems.length e2 := by
  intro i e2 h2
  obtain ⟨e, he⟩ := List.get?_lt_exists (l := g.elems)
    (hs.1 ▸ List.get?_some_lt h2)
  rw [hs.1]
  exact nbOk_of_holderShape (hs.2 i e e2 he h2) (hwf i e he)

theorem wf_of_shape {g g2 : Grid S} (hwf : g.Wf) (hs : GridShape g g2)
    (hf : g2.focus = g.focus) : g2.Wf :=
  ⟨by rw [hf, hs.1]; exact hwf.1, nb_of_shape hs hwf.2⟩

theorem alert_all_shape (S : Type) : ∀ (fuel : Nat) (ts : List Nat) (g g2 : Grid S),
    Grid.alert_all fuel g ts = some g2 → g2.focus = g.focus ∧ GridShape g g2 := by
  intro fuel
  induction fuel with
  | zero =>
    intro ts g g2 h
    exact Option.noConfusion h
  | succ f ih =>
    intro ts g g2 h
    cases ts with
    | nil =>
      simp only [Grid.alert_all, Option.some.injEq] at h
      subst h
      exact ⟨rfl, gridShape_refl g⟩
    | cons t rest =>
      cases hgt : g.elems.get? t with
      | none =>
        simp only [Grid.alert_all, hgt] at h
        exact ih rest g g2 h
      | some e =>
        simp only [Grid.alert_all, hgt] at h
        have hshape1 := gridShape_set_state (g := g) (t := t)
          (e.impl.alert e.state).1 hgt
        cases halert : (e.impl.alert e.state).2 with
        | none =>
          simp only [halert] at h
          have h1 := ih rest _ g2 h
          exact ⟨h1.1, gridShape_trans hshape1 h1.2⟩
        | some ts2 =>
          simp only [halert] at h
          cases hmid : Grid.alert_all f
              { g with elems := g.elems.set t { e with state := (e.impl.alert e.state).1 } }
              ts2 with
          | none =>
            simp only [hmid] at h
            exact Option.noConfusion h
          | some gm =>
            simp only [hmid] at h
            have h1 := ih ts2 _ gm hmid
            have h2 := ih rest gm g2 h
            exact ⟨h2.1.trans h1.1, gridShape_trans hshape1
              (gridShape_trans h1.2 h2.2)⟩

theorem dir_move_wf (d : Dir) (g : Grid S) (hwf : g.Wf) :
    (d.move g).1.Wf ∧ GridShape g (d.move g).1 := by
  cases hg : g.elems.get? g.focus with
  | none =>
    have heq : d.move g = (g, d.response) := by
      cases d <;>
        simp only [Dir.move, Dir.response, Grid.move_up, Grid.move_down, Grid.move_right,
          Grid.move_left, hg]
    rw [heq]
    exact ⟨hwf, gridShape_refl g⟩
  | some e =>
    rcases Int.lt_or_le (d.neighbor e) 0 with hnb | hnb
    · have heq : d.move g = (g, d.response) := by
        cases d <;>
        · simp only [Dir.neighbor] at hnb
          simp only [Dir.move, Dir.response, Grid.move_up, Grid.move_down, Grid.move_right,
            Grid.move_left, hg]
          rw [if_neg (by omega)]
      rw [heq]
      exact ⟨hwf, gridShape_refl g⟩
    · have heq : d.move g =
          (({ g.modifyState g.focus fun i s => i.unselect s with
              focus := (d.neighbor e).toNat } : Grid S).modifyState (d.neighbor e).toNat
            (fun i s => d.entryHook i s), .Contained) := by
        cases d <;>
        · simp only [Dir.neighbor] at hnb
          simp only [Dir.move, Dir.neighbor, Dir.entryHook, Grid.move_up, Grid.move_down,
            Grid.move_right, Grid.move_left, hg]
          rw [if_pos hnb]
      obtain ⟨hu, hd, hr2, hl⟩ := hwf.2 g.focus e hg
      have hlt : (d.neighbor e).toNat < g.elems.length := by
        cases d <;>
        · simp only [Dir.neighbor] at hnb ⊢
          first
          | exact hu hnb
          | exact hd hnb
          | exact hr2 hnb
          | exact hl hnb
      rw [heq]
      have hs1 := gridShape_modifyState g g.focus (fun i s => i.unselect s)
      have hs2 : GridShape (g.modifyState g.focus fun i s => i.unselect s)
          { g.modifyState g.focus fun i s => i.unselect s with
            focus := (d.neighbor e).toNat } :=
        ⟨rfl, fun i e1 e2 h1 h2 => by
          rw [h1] at h2
          cases h2
          exact holderShape_refl e1⟩
      have hs3 := gridShape_modifyState
        ({ g.modifyState g.focus fun i s => i.unselect s with
           focus := (d.neighbor e).toNat } : Grid S) ((d.neighbor e).toNat)
        (fun i s => d.entryHook i s)
      have hshape := gridShape_trans hs1 (gridShape_trans hs2 hs3)
      refine ⟨⟨?_, nb_of_shape hshape hwf.2⟩, hshape⟩
      have hfoc : (({ g.modifyState g.focus fun i s => i.unselect s with
          focus := (d.neighbor e).toNat } : Grid S).modifyState (d.neighbor e).toNat
          (fun i s => d.entryHook i s)).focus = (d.neighbor e).toNat := by
        simp [Grid.modifyState, Grid.modifyHolder_focus]
      rw [hfoc, hshape.1]
      exact hlt

theorem nbOk_mono {len len2 : Nat} (h : len ≤ len2) {e : ElemHolder S}
    (hn : NbOk len e) : NbOk len2 e :=
  ⟨fun hh => Nat.lt_of_lt_of_le (hn.1 hh) h,
   fun hh => Nat.lt_of_lt_of_le (hn.2.1 hh) h,
   fun hh => Nat.lt_of_lt_of_le (hn.2.2.1 hh) h,
   fun hh => Nat.lt_of_lt_of_le (hn.2.2.2 hh) h⟩

theorem wf_modifyHolder (g : Grid S) (t : Nat) (f : ElemHolder S → ElemHolder S)
    (hwf : g.Wf)
    (hf : ∀ e, NbOk g.elems.length e → NbOk g.elems.length (f e)) :
    (g.modifyHolder t f).Wf := by
  refine ⟨?_, ?_⟩
  · rw [Grid.modifyHolder_focus, Grid.modifyHolder_length]
    exact hwf.1
  · intro i e2 h2
    rw [Grid.modifyHolder_length]
    by_cases hit : i = t
    · subst hit
      cases hgt : g.elems.get? i with
      | none =>
        unfold Grid.modifyHolder at h2
        rw [hgt] at h2
        exact hwf.2 i e2 h2
      | some e =>
        rw [Grid.modifyHolder_get_self hgt f] at h2
        cases h2
        exact hf e (hwf.2 i e hgt)
    · rw [Grid.modifyHolder_get_other _ (fun h => hit h.symm) f] at h2
      exact hwf.2 i e2 h2

theorem connect_wf (g : Grid S) (a b : Nat) (hwf : g.Wf) :
    (∀ gu, g.connect_up_down a b = .ok gu → gu.Wf) ∧
    (∀ gu, g.connect_left_right a b = .ok gu → gu.Wf) := by
  constructor
  · intro gu hok
    by_cases ha : a < g.elems.length
    · by_cases hb : b < g.elems.length
      · simp only [Grid.connect_up_down, if_pos ha, if_pos hb, Except.ok.injEq] at hok
        subst hok
        have hwf1 : (g.modifyHolder a fun e => { e with down := (b : Int) }).Wf :=
          wf_modifyHolder g a _ hwf (fun e hn =>
            ⟨hn.1, fun _ => by simpa using hb, hn.2.2.1, hn.2.2.2⟩)
        refine wf_modifyHolder _ b _ hwf1 (fun e hn => ?_)
        rw [Grid.modifyHolder_length]
        rw [Grid.modifyHolder_length] at hn
        exact ⟨fun _ => by simpa using ha, hn.2.1, hn.2.2.1, hn.2.2.2⟩
      · simp only [Grid.connect_up_down, if_pos ha, if_neg hb] at hok
        exact Except.noConfusion hok
    · simp only [Grid.connect_up_down, if_neg ha] at hok
      exact Except.noConfusion hok
  · intro gu hok
    by_cases ha : a < g.elems.length
    · by_cases hb : b < g.elems.length
      · simp only [Grid.connect_left_right, if_pos ha, if_pos hb, Except.ok.injEq] at hok
        subst hok
        have hwf1 : (g.modifyHolder a fun e => { e with right := (b : Int) }).Wf :=
          wf_modifyHolder g a _ hwf (fun e hn =>
            ⟨hn.1, hn.2.1, fun _ => by simpa using hb, hn.2.2.2⟩)
        refine wf_modifyHolder _ b _ hwf1 (fun e hn => ?_)
        rw [Grid.modifyHolder_length]
        rw [Grid.modifyHolder_length] at hn
        exact ⟨hn.1, hn.2.1, hn.2.2.1, fun _ => by simpa using ha⟩
      · simp only [Grid.connect_left_right, if_pos ha, if_neg hb] at hok
        exact Except.noConfusion hok
    · simp only [Grid.connect_left_right, if_neg ha] at hok
      exact Except.noConfusion hok

theorem gridExtends_modifyHolder (g : Grid S) (t : Nat) (f : ElemHolder S → ElemHolder S)
    (hf : ∀ e, (f e).impl = e.impl ∧ (f e).x = e.x ∧ (f e).y = e.y) :
    GridExtends g (g.modifyHolder t f) := by
  refine ⟨Nat.le_of_eq (Grid.modifyHolder_length g t f).symm, fun i e e2 h1 h2 => ?_⟩
  by_cases hit : i = t
  · subst hit
    rw [Grid.modifyHolder_get_self h1 f] at h2
    cases h2
    exact hf e
  · rw [Grid.modifyHolder_get_other _ (fun h => hit h.symm) f, h1] at h2
    cases h2
    exact ⟨rfl, rfl, rfl⟩

theorem add_elem_wf (g : Grid S) (impl : ElemImpl S) (st : S) (x y : Nat) (hwf : g.Wf) :
    (g.add_elem impl st x y).1.Wf ∧ GridExtends g (g.add_elem impl st x y).1 := by
  have hlen : (g.add_elem impl st x y).1.elems.length = g.elems.length + 1 := by
    simp [Grid.add_elem]
  refine ⟨⟨?_, ?_⟩, ?_, ?_⟩
  · rw [hlen]
    exact Nat.lt_succ_of_lt hwf.1
  · intro i e2 h2
    rw [hlen]
    by_cases hi : i < g.elems.length
    · rw [show (g.add_elem impl st x y).1.elems = g.elems ++ [ElemHolder.new impl st x y]
        from rfl, List.get?_append hi] at h2
      exact nbOk_mono (Nat.le_succ _) (hwf.2 i e2 h2)
    · rw [show (g.add_elem impl st x y).1.elems = g.elems ++ [ElemHolder.new impl st x y]
        from rfl, List.get?_append_right (Nat.le_of_not_lt hi)] at h2
      cases hd : i - g.elems.length with
      | zero =>
        rw [hd] at h2
        cases h2
        exact ⟨fun hh => absurd hh (by norm_num [ElemHolder.new]),
          fun hh => absurd hh (by norm_num [ElemHolder.new]),
          fun hh => absurd hh (by norm_num [ElemHolder.new]),
          fun hh => absurd hh (by norm_num [ElemHolder.new])⟩
      | succ m =>
        rw [hd] at h2
        exact Option.noConfusion h2
  · rw [hlen]
    exact Nat.le_succ _
  · intro i e e2 h1 h2
    rw [show (g.add_elem impl st x y).1.elems = g.elems ++ [ElemHolder.new impl st x y]
      from rfl, List.get?_append (List.get?_some_lt h1), h1] at h2
    cases h2
    exact ⟨rfl, rfl, rfl⟩

theorem with_capacity_eq (tl : ElemImpl S) (tlS : S) (tx ty : Nat)
    (br : ElemImpl S) (brS : S) (bx b_y cap : Nat) :
    Grid.with_capacity tl tlS tx ty br brS bx b_y cap =
      { elems := [{ ElemHolder.new tl tlS tx ty with state := tl.select tlS },
                  ElemHolder.new br brS bx b_y], focus := 0 } := rfl

theorem with_capacity_wf (tl : ElemImpl S) (tlS : S) (tx ty : Nat)
    (br : ElemImpl S) (brS : S) (bx b_y cap : Nat) :
    (Grid.with_capacity tl tlS tx ty br brS bx b_y cap).Wf ∧
    (Grid.with_capacity tl tlS tx ty br brS bx b_y cap).elems.length = 2 := by
  rw [with_capacity_eq]
  refine ⟨⟨by simp, ?_⟩, by simp⟩
  intro i e h
  cases i with
  | zero =>
    cases h
    exact ⟨fun hh => absurd hh (by norm_num [ElemHolder.new]),
      fun hh => absurd hh (by norm_num [ElemHolder.new]),
      fun hh => absurd hh (by norm_num [ElemHolder.new]),
      fun hh => absurd hh (by norm_num [ElemHolder.new])⟩
  | succ n =>
    cases n with
    | zero =>
      cases h
      exact ⟨fun hh => absurd hh (by norm_num [ElemHolder.new]),
        fun hh => absurd hh (by norm_num [ElemHolder.new]),
        fun hh => absurd hh (by norm_num [ElemHolder.new]),
        fun hh => absurd hh (by norm_num [ElemHolder.new])⟩
    | succ m => exact Option.noConfusion h

theorem respond_wf (g : Grid S) (input : Char) (fuel : Nat) (gr : Grid S × Response)
    (hwf : g.Wf) (h : Grid.respond fuel g input = some gr) :
    gr.1.Wf ∧ GridExtends g gr.1 := by
  obtain ⟨e, hg⟩ := List.get?_lt_exists (l := g.elems) hwf.1
  simp only [Grid.respond, hg] at h
  have hshape0 := gridShape_set_state (g := g) (t := g.focus)
    (e.impl.respond e.state input).1 hg
  have hwf0 : ({ g with elems := g.elems.set g.focus { e with state := (e.impl.respond e.state input).1 } } : Grid S).Wf :=
    wf_of_shape hwf hshape0 rfl
  cases hr : (e.impl.respond e.state input).2 with
  | Contained =>
    simp only [hr, Option.some.injEq] at h
    subst h
    exact ⟨hwf0, gridExtends_of_shape hshape0⟩
  | MoveUp =>
    simp only [hr, Option.some.injEq] at h
    subst h
    have hm := dir_move_wf Dir.up _ hwf0
    exact ⟨hm.1, gridExtends_trans (gridExtends_of_shape hshape0)
      (gridExtends_of_shape hm.2)⟩
  | MoveDown =>
    simp only [hr, Option.some.injEq] at h
    subst h
    have hm := dir_move_wf Dir.down _ hwf0
    exact ⟨hm.1, gridExtends_trans (gridExtends_of_shape hshape0)
      (gridExtends_of_shape hm.2)⟩
  | MoveRight =>
    simp only [hr, Option.some.injEq] at h
    subst h
    have hm := dir_move_wf Dir.right _ hwf0
    exact ⟨hm.1, gridExtends_trans (gridExtends_of_shape hshape0)
      (gridExtends_of_shape hm.2)⟩
  | MoveLeft =>
    simp only [hr, Option.some.injEq] at h
    subst h
    have hm := dir_move_wf Dir.left _ hwf0
    exact ⟨hm.1, gridExtends_trans (gridExtends_of_shape hshape0)
      (gridExtends_of_shape hm.2)⟩
  | Alert ts =>
    simp only [hr] at h
    obtain ⟨gm, hm, hgr⟩ := Option.map_eq_some'.mp h
    have ha := alert_all_shape S fuel ts _ gm hm
    have : gr = (gm, Response.Contained) := hgr.symm
    subst this
    exact ⟨wf_of_shape hwf0 ha.2 ha.1, gridExtends_trans
      (gridExtends_of_shape hshape0) (gridExtends_of_shape ha.2)⟩

theorem applyOp_wf_extends (g : Grid S) (op : GridOp S) (hwf : g.Wf) :
    (g.applyOp op).Wf ∧ GridExtends g (g.applyOp op) := by
  cases op with
  | addElem impl st x y => exact add_elem_wf g impl st x y hwf
  | connectUpDown a b =>
    cases hok : g.connect_up_down a b with
    | ok gu =>
      simp only [Grid.applyOp, hok]
      refine ⟨(connect_wf g a b hwf).1 gu hok, ?_⟩
      by_cases ha : a < g.elems.length
      · by_cases hb : b < g.elems.length
        · simp only [Grid.connect_up_down, if_pos ha, if_pos hb, Except.ok.injEq] at hok
          subst hok
          exact gridExtends_trans
            (gridExtends_modifyHolder g a (fun e => { e with down := (b : Int) })
              (fun e => ⟨rfl, rfl, rfl⟩))
            (gridExtends_modifyHolder _ b (fun e => { e with up := (a : Int) })
              (fun e => ⟨rfl, rfl, rfl⟩))
        · simp only [Grid.connect_up_down, if_pos ha, if_neg hb] at hok
          exact Except.noConfusion hok
      · simp only [Grid.connect_up_down, if_neg ha] at hok
        exact Except.noConfusion hok
    | error n =>
      simp only [Grid.applyOp, hok]
      exact ⟨hwf, gridExtends_refl g⟩
  | connectLeftRight a b =>
    cases hok : g.connect_left_right a b with
    | ok gu =>
      simp only [Grid.applyOp, hok]
      refine ⟨(connect_wf g a b hwf).2 gu hok, ?_⟩
      by_cases ha : a < g.elems.length
      · by_cases hb : b < g.elems.length
        · simp only [Grid.connect_left_right, if_pos ha, if_pos hb, Except.ok.injEq] at hok
          subst hok
          exact gridExtends_trans
            (gridExtends_modifyHolder g a (fun e => { e with right := (b : Int) })
              (fun e => ⟨rfl, rfl, rfl⟩))
            (gridExtends_modifyHolder _ b (fun e => { e with left := (a : Int) })
              (fun e => ⟨rfl, rfl, rfl⟩))
        · simp only [Grid.connect_left_right, if_pos ha, if_neg hb] at hok
          exact Except.noConfusion hok
      · simp only [Grid.connect_left_right, if_neg ha] at hok
        exact Except.noConfusion hok
    | error n =>
      simp only [Grid.applyOp, hok]
      exact ⟨hwf, gridExtends_refl g⟩
  | respond input fuel =>
    cases hr : Grid.respond fuel g input with
    | none =>
      simp only [Grid.applyOp, hr]
      exact ⟨hwf, gridExtends_refl g⟩
    | some gr =>
      simp only [Grid.applyOp, hr]
      exact respond_wf g input fuel gr hwf hr

theorem wf_extends_foldl (S : Type) : ∀ (ops : List (GridOp S)) (g : Grid S), g.Wf →
    (ops.foldl Grid.applyOp g).Wf ∧ GridExtends g (ops.foldl Grid.applyOp g) := by
  intro ops
  induction ops with
  | nil => exact fun g h => ⟨h, gridExtends_refl g⟩
  | cons op rest ih =>
    intro g hwf
    have h1 := applyOp_wf_extends g op hwf
    have h2 := ih (g.applyOp op) h1.1
    exact ⟨h2.1, gridExtends_trans h1.2 h2.2⟩

/-- C5: starting from `with_capacity` and applying any sequence of
`add_elem`, `connect_up_down`, `connect_left_right` and `respond` calls, the
grid's focus always indexes a live entry, every non-negative neighbor slot
always indexes a live entry (`Wf`), and entries are never removed or
reordered: the entry count never shrinks and every entry keeps its element
and draw offset at its original index (`GridExtends`); in particular the
two constructor-seeded entries keep indices 0 and 1. -/
theorem grid_wf_ops (S : Type) (tl : ElemImpl S) (tlS : S) (tx ty : Nat)
    (br : ElemImpl S) (brS : S) (bx b_y cap : Nat) (ops : List (GridOp S))
    (g0 : Grid S) (hg0 : g0 = Grid.with_capacity tl tlS tx ty br brS bx b_y cap) :
    (ops.foldl Grid.applyOp g0).Wf
  ∧ GridExtends g0 (ops.foldl Grid.applyOp g0)
  ∧ g0.elems.length = 2
  ∧ 2 ≤ (ops.foldl Grid.applyOp g0).elems.length := by
  subst hg0
  have h0 := with_capacity_wf tl tlS tx ty br brS bx b_y cap
  have h1 := wf_extends_foldl S ops _ h0.1
  refine ⟨h1.1, h1.2, h0.2, ?_⟩
  rw [← h0.2]
  exact h1.2.1

/-- The `with_capacity` grid the C5 witness starts from. -/
def c5base : Grid (List String) :=
  Grid.with_capacity logImpl [] 1 1 logImpl [] 3 3 10

/-- An operation sequence exercising every kind of mutation. -/
def c5ops : List (GridOp (List String)) :=
  [GridOp.addElem logImpl [] 2 2, GridOp.connectUpDown 0 2,
   GridOp.connectLeftRight 2 1, GridOp.respond DOWN 1, GridOp.connectUpDown 0 7]

/-- Witness for `grid_wf_ops` on a concrete operation sequence. -/
theorem grid_wf_ops_witness :
    (c5ops.foldl Grid.applyOp c5base).Wf
  ∧ GridExtends c5base (c5ops.foldl Grid.applyOp c5base)
  ∧ c5base.elems.length = 2
  ∧ 2 ≤ (c5ops.foldl Grid.applyOp c5base).elems.length :=
  grid_wf_ops (List String) logImpl [] 1 1 logImpl [] 3 3 10 c5ops c5base rfl
